import Mathlib

/-
Verification of the kv server against its specification.

The development shallowly embeds the Rust sources:
  * `src/pb/mod.rs`            — protobuf data model and conversions
  * `src/error.rs`             — the `KvError` type and its display strings
  * `src/network/frame.rs`     — the length-prefixed frame codec
  * `src/network/stream_result.rs` — the client-side stream adapter
  * `src/service/command_service.rs` — one-shot command execution
  * `src/service/topic.rs` and `src/service/topic_service.rs` — pub/sub

Machine integers are modelled as `Nat`/`Int` with explicit `% 2 ^ w` at the
points where the Rust code truncates (`as u32`, `AtomicU32` wrap-around,
`i64 as u32`).  Byte buffers are `List Nat`.  The external protobuf and gzip
codecs (`prost`, `flate2`) are abstracted as parameters; theorems that need
their round-trip behaviour take it as a hypothesis.
-/

namespace KV

/-- Byte buffers: lists of byte values (each intended `< 256`). -/
abbrev Bytes := List Nat

/-- Inner tagged union of `Value` (`value::Value` in `src/pb/abi`): one of
string, 64-bit integer, binary, bool, float.  A float is carried by its bit
pattern, which is all the claims ever need of it. -/
inductive ValueInner : Type
| str (s : String)
| integer (i : Int)
| binary (b : List Nat)
| boolean (b : Bool)
| float (bits : Nat)
deriving DecidableEq

/-- Models `Value` from the protobuf schema: an optional tagged union; `None` is the
default/null value. -/
structure Value : Type where
  value : Option ValueInner
deriving DecidableEq

/-- Models `Value::default()`: the null value. -/
def Value.null : Value := ⟨none⟩

/-- Models `From<&str> for Value`. -/
def Value.ofStr (s : String) : Value := ⟨some (.str s)⟩

/-- Models `From<i64> for Value`. -/
def Value.ofInt (i : Int) : Value := ⟨some (.integer i)⟩

/-- Models `From<bool> for Value`. -/
def Value.ofBool (b : Bool) : Value := ⟨some (.boolean b)⟩

/-- Models `Kvpair` from the protobuf schema. -/
structure Kvpair : Type where
  key : String
  value : Option Value
deriving DecidableEq

/-- Models `Kvpair::new` (src/pb/mod.rs). -/
def Kvpair.new (k : String) (v : Value) : Kvpair := ⟨k, some v⟩

/-- Models `CommandResponse` from the protobuf schema. -/
structure CommandResponse : Type where
  status : Nat
  message : String
  values : List Value
  pairs : List Kvpair
deriving DecidableEq

/-- Models `CommandResponse::default()`. -/
def CommandResponse.default : CommandResponse := ⟨0, "", [], []⟩

/-- Models `KvError` (src/error.rs).  Error payloads coming from external crates
(prost, io, yamux, s2n-quic, sled) are carried as their display strings. -/
inductive KvError : Type
| NotFound (table key : String)
| InvalidCommand (cmd : String)
| ConvertError (v : Value) (target : String)
| StorageError (op table key err : String)
| EncodeError (detail : String)
| DecodeError (detail : String)
| FrameError (detail : String)
| CertificateParseError (a b : String)
| IOError (detail : String)
| Internal (detail : String)
| YamuxConnectionError (detail : String)
| QuicConnectionError (detail : String)
| SledError (detail : String)
deriving DecidableEq

/-- Debug formatting of `ValueInner`, as derived by Rust (`{:?}`); only the
shape matters, it is used solely inside `ConvertError`'s display string. -/
def ValueInner.debugFmt : ValueInner → String
| .str s => "String(\"" ++ s ++ "\")"
| .integer i => "Integer(" ++ toString i ++ ")"
| .binary b => "Binary(" ++ toString b ++ ")"
| .boolean b => "Bool(" ++ toString b ++ ")"
| .float bits => "Float(" ++ toString bits ++ ")"

/-- Debug formatting of `Value`, as derived by Rust (`{:?}`), e.g.
`Value { value: Some(String("v")) }` (cf. the test in src/error.rs). -/
def Value.debugFmt : Value → String
| ⟨none⟩ => "Value \x7b value: None \x7d"
| ⟨some v⟩ => "Value \x7b value: Some(" ++ v.debugFmt ++ ") \x7d"

/-- Models `KvError`'s `Display` strings, from the `thiserror` attributes in
src/error.rs. -/
def KvError.display : KvError → String
| .NotFound t k => "Not found for table: " ++ t ++ ", key: " ++ k
| .InvalidCommand c => "Cannot parse command: `" ++ c ++ "`"
| .ConvertError v target => "Cannot convert value " ++ v.debugFmt ++ " to " ++ target
| .StorageError op t k e =>
    "Cannot process command " ++ op ++ " with table: " ++ t ++ ", key: " ++ k ++
      ". Error: " ++ e
| .EncodeError _ => "Failed to encode protobuf message"
| .DecodeError _ => "Failed to decode protobuf message"
| .FrameError d => "Frame error: " ++ d
| .CertificateParseError a b => "Failed to parse certificate: " ++ a ++ "-" ++ b
| .IOError d => "IO error: " ++ d
| .Internal d => "Internal error: " ++ d
| .YamuxConnectionError _ => "Yamux Connection error"
| .QuicConnectionError _ => "Quic connection error"
| .SledError _ => "Failed to access sled db"

/-- Models `From<Value> for CommandResponse`: status 200 with a single value. -/
def CommandResponse.ofValue (v : Value) : CommandResponse := ⟨200, "", [v], []⟩

/-- Models `From<Vec<Value>> for CommandResponse`: status 200 with the value list. -/
def CommandResponse.ofValues (vs : List Value) : CommandResponse := ⟨200, "", vs, []⟩

/-- Models `From<Vec<Kvpair>> for CommandResponse`: status 200 with the pair list. -/
def CommandResponse.ofPairs (ps : List Kvpair) : CommandResponse := ⟨200, "", [], ps⟩

/-- Models `From<KvError> for CommandResponse` (src/pb/mod.rs): status 500 with the
error's display message, overridden to 404 for `NotFound` and 400 for
`InvalidCommand`. -/
def CommandResponse.ofError (e : KvError) : CommandResponse :=
  { status :=
      match e with
      | .NotFound _ _ => 404
      | .InvalidCommand _ => 400
      | _ => 500
    message := e.display
    values := []
    pairs := [] }

/-- Models `CommandResponse::ok()`: default response with status 200. -/
def CommandResponse.okResp : CommandResponse := ⟨200, "", [], []⟩

/-- Models `CommandResponse::unsubscribe_ack()`: the all-default (status 0)
sentinel. -/
def CommandResponse.unsubscribeAck : CommandResponse := CommandResponse.default

/-- Models `From<KvError> for Value` (src/pb/mod.rs): any error maps to the default
(null) value. -/
def Value.ofErr (_ : KvError) : Value := Value.null

/- ------------------------------------------------------------------ -/
/- Frame codec (src/network/frame.rs)                                  -/
/- ------------------------------------------------------------------ -/

/-- Models `LENGTH`: size of the frame header in bytes. -/
def LENGTH : Nat := 4

/-- Models `MAX_FRAME = 2u32.pow(31)`. -/
def MAX_FRAME : Nat := 2 ^ 31

/-- Models `COMPRESSION_LIMIT`: 1500 (MTU) − 20 (ip) − 20 (tcp) − 20 (others) − 4. -/
def COMPRESSION_LIMIT : Nat := 1436

/-- Models `COMPRESSION_BIT = 1 << 31`. -/
def COMPRESSION_BIT : Nat := 2 ^ 31

/-- Models `BufMut::put_u32`: the four big-endian bytes of `n`'s low 32 bits. -/
def u32be (n : Nat) : Bytes :=
  [n / 2 ^ 24 % 256, n / 2 ^ 16 % 256, n / 2 ^ 8 % 256, n % 256]

/-- Models `Buf::get_u32`: big-endian 32-bit value of four bytes. -/
def readU32be (b0 b1 b2 b3 : Nat) : Nat :=
  b0 * 2 ^ 24 + b1 * 2 ^ 16 + b2 * 2 ^ 8 + b3

/-- The protobuf codec for a message type (`prost::Message`), abstracted:
`enc` is `Message::encode` (with `(enc m).length` as `encoded_len`) and
`dec` is `Message::decode`. -/
structure MsgCodec (M : Type) : Type where
  enc : M → Bytes
  dec : Bytes → Except KvError M

/-- The gzip codec (`flate2`), abstracted: `comp` is `GzEncoder` at the
default level, `decomp` is `GzDecoder::read_to_end`. -/
structure GzipCodec : Type where
  comp : Bytes → Bytes
  decomp : Bytes → Bytes

/-- Models `FrameCodec::encode_frame` (src/network/frame.rs).  In the compression
branch the initially written size header is discarded (`split_off` +
`clear`) and replaced by `compressed_length | COMPRESSION_BIT` truncated to
32 bits (`as u32`); the compressed bytes follow.  Otherwise the header is
the protobuf size and the raw protobuf bytes follow. -/
def encodeFrame {M : Type} (c : MsgCodec M) (g : GzipCodec) (m : M) :
    Except KvError Bytes :=
  let size := (c.enc m).length
  if size > MAX_FRAME then
    .error (.FrameError "length exceed")
  else if size > COMPRESSION_LIMIT then
    let msg := g.comp (c.enc m)
    .ok (u32be ((msg.length ||| COMPRESSION_BIT) % 2 ^ 32) ++ msg)
  else
    .ok (u32be (size % 2 ^ 32) ++ c.enc m)

/-- Outcome of `decode_frame`: a decoded message together with the buffer
remaining after `advance`, a decoding error (buffer not advanced), or a
panic (`get_u32` / slicing on a buffer that is too short). -/
inductive FrameDec (M : Type) : Type
| panicked
| fail (e : KvError)
| ok (m : M) (rest : Bytes)
deriving DecidableEq

/-- Models `FrameCodec::decode_frame` (src/network/frame.rs): read the 4-byte
header, clear the compression bit to get the length, take that many payload
bytes, gunzip if the compression bit was set, protobuf-decode, and advance
the buffer past the payload. -/
def decodeFrame {M : Type} (c : MsgCodec M) (g : GzipCodec) : Bytes → FrameDec M
| b0 :: b1 :: b2 :: b3 :: rest =>
    let header := readU32be b0 b1 b2 b3
    let len := header % 2 ^ 31
    if rest.length < len then .panicked
    else
      let payload := rest.take len
      let raw := if 2 ^ 31 ≤ header then g.decomp payload else payload
      match c.dec raw with
      | .error e => .fail e
      | .ok m => .ok m (rest.drop len)
| _ => .panicked

/- ------------------------------------------------------------------ -/
/- Frame codec lemmas                                                 -/
/- ------------------------------------------------------------------ -/

theorem readU32be_u32be (n : Nat) :
    readU32be (n / 2 ^ 24 % 256) (n / 2 ^ 16 % 256) (n / 2 ^ 8 % 256) (n % 256) =
      n % 2 ^ 32 := by
  unfold readU32be
  omega

theorem lor_two_pow_31 (a : Nat) (h : a < 2 ^ 31) : a ||| 2 ^ 31 = 2 ^ 31 + a := by
  have h1 : 2 ^ 31 * 1 + a = 2 ^ 31 * 1 ||| a := Nat.mul_add_lt_is_or h 1
  simp only [Nat.mul_one] at h1
  rw [Nat.lor_comm]
  exact h1.symm

theorem decodeFrame_cons {M : Type} (c : MsgCodec M) (g : GzipCodec)
    (h : Nat) (tail : Bytes) (hlt : h < 2 ^ 32)
    (hlen : ¬ tail.length < h % 2 ^ 31) :
    decodeFrame c g (u32be h ++ tail) =
      (match c.dec (if 2 ^ 31 ≤ h then g.decomp (tail.take (h % 2 ^ 31))
                    else tail.take (h % 2 ^ 31)) with
       | .error e => .fail e
       | .ok m => .ok m (tail.drop (h % 2 ^ 31))) := by
  have hread := readU32be_u32be h
  rw [Nat.mod_eq_of_lt hlt] at hread
  simp only [u32be, List.cons_append, List.nil_append, decodeFrame, hread,
    if_neg hlen]

/-- C1: for every message whose protobuf-encoded size is within the frame
limit, decoding the frame produced by `encode_frame` yields the message back
and consumes exactly that frame from the buffer.  The protobuf and gzip
codecs are abstract; their round-trip behaviour on this message (and the
fact that the compressed payload fits the 31-bit length field) are
hypotheses.  Both encoder branches — raw for sizes ≤ 1436 and gzip for
sizes > 1436, size 0 included — are covered by the case split. -/
theorem C1_frame_roundtrip {M : Type} (c : MsgCodec M) (g : GzipCodec) (m : M)
    (rest : Bytes)
    (hdec : c.dec (c.enc m) = .ok m)
    (hgz : g.decomp (g.comp (c.enc m)) = c.enc m)
    (hsize : (c.enc m).length ≤ MAX_FRAME)
    (hcomp : (g.comp (c.enc m)).length < 2 ^ 31) :
    ∃ frame, encodeFrame c g m = .ok frame ∧
      decodeFrame c g (frame ++ rest) = .ok m rest := by
  rw [MAX_FRAME] at hsize
  have hnotmax : ¬ (c.enc m).length > MAX_FRAME := by rw [MAX_FRAME]; omega
  by_cases hc : (c.enc m).length > COMPRESSION_LIMIT
  · refine ⟨u32be (((g.comp (c.enc m)).length ||| COMPRESSION_BIT) % 2 ^ 32) ++
      g.comp (c.enc m), ?_, ?_⟩
    · simp only [encodeFrame, if_neg hnotmax, if_pos hc]
    · have hor : (g.comp (c.enc m)).length ||| COMPRESSION_BIT =
          2 ^ 31 + (g.comp (c.enc m)).length := by
        rw [COMPRESSION_BIT]; exact lor_two_pow_31 _ hcomp
      have hlt : 2 ^ 31 + (g.comp (c.enc m)).length < 2 ^ 32 := by omega
      have hmod : (2 ^ 31 + (g.comp (c.enc m)).length) % 2 ^ 31 =
          (g.comp (c.enc m)).length := by omega
      have hlen : ¬ (g.comp (c.enc m) ++ rest).length <
          (2 ^ 31 + (g.comp (c.enc m)).length) % 2 ^ 31 := by
        rw [hmod, List.length_append]; omega
      rw [List.append_assoc, hor, Nat.mod_eq_of_lt hlt,
        decodeFrame_cons c g _ _ hlt hlen, hmod,
        if_pos (Nat.le_add_right (2 ^ 31) _),
        List.take_left' rfl, List.drop_left' rfl, hgz, hdec]
  · refine ⟨u32be ((c.enc m).length % 2 ^ 32) ++ c.enc m, ?_, ?_⟩
    · simp only [encodeFrame, if_neg hnotmax, if_neg hc]
    · rw [COMPRESSION_LIMIT] at hc
      have hsmall : (c.enc m).length < 2 ^ 32 := by omega
      have hm32 : (c.enc m).length % 2 ^ 32 = (c.enc m).length :=
        Nat.mod_eq_of_lt hsmall
      have hm31 : (c.enc m).length % 2 ^ 31 = (c.enc m).length := by omega
      have hlen : ¬ (c.enc m ++ rest).length < (c.enc m).length % 2 ^ 31 := by
        rw [hm31, List.length_append]; omega
      rw [List.append_assoc, hm32, decodeFrame_cons c g _ _ hsmall hlen, hm31,
        if_neg (by omega), List.take_left' rfl, List.drop_left' rfl, hdec]

/-- A unit message whose protobuf encoding is 1437 zero bytes; instantiates
the frame-codec theorems on the compression branch. -/
def unitCodec : MsgCodec Unit :=
  ⟨fun _ => List.replicate 1437 0, fun _ => .ok ()⟩

/-- Toy gzip pair inverting `unitCodec`'s payload: it compresses to `[1, 2, 3]`
and decompresses back to the 1437 zero bytes. -/
def toyGzip : GzipCodec :=
  ⟨fun _ => [1, 2, 3], fun _ => List.replicate 1437 0⟩

/-- Witness for C1: the round-trip theorem applied to a concrete message
taking the compression branch (1437-byte payload), with a byte of trailing
buffer content left intact. -/
theorem C1_frame_roundtrip_witness :
    (unitCodec.dec (unitCodec.enc ()) = .ok ()) ∧
    (toyGzip.decomp (toyGzip.comp (unitCodec.enc ())) = unitCodec.enc ()) ∧
    ((unitCodec.enc ()).length ≤ MAX_FRAME) ∧
    ((toyGzip.comp (unitCodec.enc ())).length < 2 ^ 31) ∧
    (∃ frame, encodeFrame unitCodec toyGzip () = .ok frame ∧
      decodeFrame unitCodec toyGzip (frame ++ [9]) = .ok () [9]) :=
  ⟨rfl, rfl,
   by simp only [unitCodec, List.length_replicate, MAX_FRAME]; norm_num,
   by norm_num [toyGzip, unitCodec],
   C1_frame_roundtrip unitCodec toyGzip () [9] rfl rfl
     (by simp only [unitCodec, List.length_replicate, MAX_FRAME]; norm_num)
     (by norm_num [toyGzip, unitCodec])⟩

/-- A `Nat` message encoding to that many zero bytes; with it the encoder can
be driven at any encoded size without materialising concrete payloads in
statements. -/
def padCodec : MsgCodec Nat :=
  ⟨fun n => List.replicate n 0, fun _ => .ok 0⟩

/-- Gzip pair that compresses everything to the empty byte string. -/
def constGzip : GzipCodec := ⟨fun _ => [], fun _ => []⟩

/-- Counterexample to C2: a message whose protobuf-encoded size is exactly
`2 ^ 31` is accepted by `encode_frame` (the check is `size > 2 ^ 31`, not
`size > 2 ^ 31 − 1`), producing a compressed frame — it is not rejected with
a `FrameError` as the claim states. -/
theorem C2_counterexample :
    (padCodec.enc (2 ^ 31)).length = 2 ^ 31 ∧
    encodeFrame padCodec constGzip (2 ^ 31) = .ok [128, 0, 0, 0] := by
  have hlen : (padCodec.enc (2 ^ 31)).length = 2 ^ 31 := by
    show (List.replicate (2 ^ 31) 0).length = 2 ^ 31
    rw [List.length_replicate]
  refine ⟨hlen, ?_⟩
  simp only [encodeFrame, hlen, constGzip]
  norm_num [MAX_FRAME, COMPRESSION_LIMIT, COMPRESSION_BIT, u32be]

/-- C2 amended: `encode_frame` fails with `FrameError` exactly when the
message's protobuf-encoded size exceeds `2 ^ 31` (`MAX_FRAME`); payloads of
length `2 ^ 31 − 1` and `2 ^ 31` are both accepted, a payload of length
`2 ^ 31 + 1` is rejected. -/
theorem C2_encode_frame_error_iff {M : Type} (c : MsgCodec M) (g : GzipCodec)
    (m : M) :
    encodeFrame c g m = .error (.FrameError "length exceed") ↔
      MAX_FRAME < (c.enc m).length := by
  unfold encodeFrame
  by_cases h : (c.enc m).length > MAX_FRAME
  · simp [h]
  · simp only [if_neg h]
    by_cases hc : (c.enc m).length > COMPRESSION_LIMIT
    · simp only [if_pos hc]
      constructor
      · intro hfalse; exact absurd hfalse (by simp)
      · intro hlt; omega
    · simp only [if_neg hc]
      constructor
      · intro hfalse; exact absurd hfalse (by simp)
      · intro hlt; omega

/-- The 32-bit big-endian value of a frame's first four bytes. -/
def frameHeader : Bytes → Nat
| b0 :: b1 :: b2 :: b3 :: _ => readU32be b0 b1 b2 b3
| _ => 0

theorem frameHeader_u32be (n : Nat) (tail : Bytes) :
    frameHeader (u32be n ++ tail) = n % 2 ^ 32 := by
  simp only [u32be, List.cons_append, List.nil_append, frameHeader,
    readU32be_u32be]

/-- C3: the high bit of the 4-byte big-endian header of every frame produced
by `encode_frame` is set iff the message's protobuf-encoded size exceeds the
1436-byte `COMPRESSION_LIMIT`; at or below the limit the high bit is clear
and the payload is the raw protobuf bytes. -/
theorem C3_compression_bit {M : Type} (c : MsgCodec M) (g : GzipCodec) (m : M)
    (frame : Bytes) (h : encodeFrame c g m = .ok frame) :
    ((frameHeader frame).testBit 31 = true ↔
      COMPRESSION_LIMIT < (c.enc m).length) ∧
    ((c.enc m).length ≤ COMPRESSION_LIMIT →
      frame = u32be (c.enc m).length ++ c.enc m) := by
  unfold encodeFrame at h
  by_cases hmax : (c.enc m).length > MAX_FRAME
  · rw [if_pos hmax] at h; exact absurd h (by simp)
  · rw [if_neg hmax] at h
    by_cases hc : (c.enc m).length > COMPRESSION_LIMIT
    · rw [if_pos hc] at h
      have hframe := Except.ok.inj h
      subst hframe
      refine ⟨⟨fun _ => hc, fun _ => ?_⟩, fun hle => absurd hc (by omega)⟩
      rw [frameHeader_u32be, COMPRESSION_BIT, Nat.testBit_mod_two_pow,
        Nat.testBit_mod_two_pow, Nat.testBit_or, Nat.testBit_two_pow_self]
      simp
    · rw [if_neg hc] at h
      have hframe := Except.ok.inj h
      subst hframe
      simp only [COMPRESSION_LIMIT] at hc ⊢
      have hm32 : (c.enc m).length % 2 ^ 32 = (c.enc m).length :=
        Nat.mod_eq_of_lt (by omega)
      have hbitf :
          (frameHeader (u32be ((c.enc m).length % 2 ^ 32) ++ c.enc m)).testBit 31 =
            false := by
        rw [frameHeader_u32be, hm32, hm32]
        exact Nat.testBit_lt_two_pow (by omega)
      refine ⟨⟨fun hbit => absurd hbit (by rw [hbitf]; simp),
        fun hlt => absurd hlt (by omega)⟩, fun _ => by rw [hm32]⟩

/-- Witness for C3: a 1437-byte message is compressed; its frame is the
high-bit header `[128, 0, 0, 3]` followed by the compressed bytes, and the
theorem's conclusions hold on it. -/
theorem C3_compression_bit_witness :
    encodeFrame unitCodec toyGzip () = .ok [128, 0, 0, 3, 1, 2, 3] ∧
    (((frameHeader [128, 0, 0, 3, 1, 2, 3]).testBit 31 = true ↔
      COMPRESSION_LIMIT < (unitCodec.enc ()).length) ∧
    ((unitCodec.enc ()).length ≤ COMPRESSION_LIMIT →
      [128, 0, 0, 3, 1, 2, 3] =
        u32be (unitCodec.enc ()).length ++ unitCodec.enc ())) := by
  have hlen : (unitCodec.enc ()).length = 1437 := by
    show (List.replicate 1437 0).length = 1437
    rw [List.length_replicate]
  have henc : encodeFrame unitCodec toyGzip () = .ok [128, 0, 0, 3, 1, 2, 3] := by
    simp only [encodeFrame, hlen, toyGzip]
    norm_num [MAX_FRAME, COMPRESSION_LIMIT, COMPRESSION_BIT, u32be]
    decide
  exact ⟨henc, C3_compression_bit unitCodec toyGzip () _ henc⟩

/- ------------------------------------------------------------------ -/
/- Commands, storage port, dispatch (src/pb/mod.rs, src/service)       -/
/- ------------------------------------------------------------------ -/

/-- The `request_data` one-of of `CommandRequest` (protobuf schema): nine
one-shot variants and three streaming variants. -/
inductive RequestData : Type
| hget (table key : String)
| hset (table : String) (pair : Option Kvpair)
| hdel (table key : String)
| hexist (table key : String)
| hgetall (table : String)
| hmget (table : String) (keys : List String)
| hmset (table : String) (pairs : List Kvpair)
| hmdel (table : String) (keys : List String)
| hmexist (table : String) (keys : List String)
| subscribe (topic : String)
| publish (topic : String) (data : List Value)
| unsubscribe (topic : String) (id : Nat)
deriving DecidableEq

/-- Modelled from the spec: `RequestData::is_streaming` lives with the
generated protobuf code (`src/pb/abi`), which is not among the sources; §3
of the spec partitions the variants — Subscribe, Publish and Unsubscribe
form the streaming class, the other nine are one-shot. -/
def RequestData.isStreaming : RequestData → Bool
| .subscribe _ => true
| .publish _ _ => true
| .unsubscribe _ _ => true
| _ => false

/-- Models `CommandRequest` (protobuf schema): an optional `request_data`. -/
structure CommandRequest : Type where
  requestData : Option RequestData
deriving DecidableEq

/-- The `Storage` port (its trait signature is visible in
`src/storage/db.rs`): synchronous operations that either return a result or
a `KvError`.  The backend's interior mutability is threaded explicitly: each
operation also returns the updated backend state. -/
structure StoragePort (S : Type) : Type where
  get : S → String → String → Except KvError (Option Value) × S
  set : S → String → String → Value → Except KvError (Option Value) × S
  contains : S → String → String → Except KvError Bool × S
  del : S → String → String → Except KvError (Option Value) × S
  getAll : S → String → Except KvError (List Kvpair) × S

/-- Models `impl CommandService for Hget` (src/service/command_service.rs). -/
def hgetExecute {S : Type} (p : StoragePort S) (s : S) (table key : String) :
    CommandResponse × S :=
  match p.get s table key with
  | (.ok (some v), s') => (.ofValue v, s')
  | (.ok none, s') => (.ofError (.NotFound table key), s')
  | (.error e, s') => (.ofError e, s')

/-- Models `impl CommandService for Hset`: a missing pair yields the default value;
otherwise `set` stores `pair.value` (or null) and the previous value (or
null) is returned. -/
def hsetExecute {S : Type} (p : StoragePort S) (s : S) (table : String)
    (pair : Option Kvpair) : CommandResponse × S :=
  match pair with
  | some pr =>
    match p.set s table pr.key (pr.value.getD Value.null) with
    | (.ok (some v), s') => (.ofValue v, s')
    | (.ok none, s') => (.ofValue Value.null, s')
    | (.error e, s') => (.ofError e, s')
  | none => (.ofValue Value.null, s)

/-- Models `impl CommandService for Hdel`. -/
def hdelExecute {S : Type} (p : StoragePort S) (s : S) (table key : String) :
    CommandResponse × S :=
  match p.del s table key with
  | (.ok (some v), s') => (.ofValue v, s')
  | (.ok none, s') => (.ofValue Value.null, s')
  | (.error e, s') => (.ofError e, s')

/-- Models `impl CommandService for Hexist`. -/
def hexistExecute {S : Type} (p : StoragePort S) (s : S) (table key : String) :
    CommandResponse × S :=
  match p.contains s table key with
  | (.ok b, s') => (.ofValue (Value.ofBool b), s')
  | (.error e, s') => (.ofError e, s')

/-- Models `impl CommandService for Hgetall`. -/
def hgetallExecute {S : Type} (p : StoragePort S) (s : S) (table : String) :
    CommandResponse × S :=
  match p.getAll s table with
  | (.ok v, s') => (.ofPairs v, s')
  | (.error e, s') => (.ofError e, s')

/-- Models `impl CommandService for Hmget`: per-key `get`, mapping a present value
to itself and anything else (absent key or storage error) to the default
value; always a status-200 response. -/
def hmgetExecute {S : Type} (p : StoragePort S) (s : S) (table : String)
    (keys : List String) : CommandResponse × S :=
  let r := keys.foldl (fun (acc : List Value × S) key =>
    match p.get acc.2 table key with
    | (.ok (some v), s') => (acc.1 ++ [v], s')
    | (.ok none, s') => (acc.1 ++ [Value.null], s')
    | (.error _, s') => (acc.1 ++ [Value.null], s')) ([], s)
  (.ofValues r.1, r.2)

/-- Models `impl CommandService for Hmset`: per-pair `set`, previous value or
default; always a status-200 response. -/
def hmsetExecute {S : Type} (p : StoragePort S) (s : S) (table : String)
    (pairs : List Kvpair) : CommandResponse × S :=
  let r := pairs.foldl (fun (acc : List Value × S) pr =>
    match p.set acc.2 table pr.key (pr.value.getD Value.null) with
    | (.ok (some v), s') => (acc.1 ++ [v], s')
    | (.ok none, s') => (acc.1 ++ [Value.null], s')
    | (.error _, s') => (acc.1 ++ [Value.null], s')) ([], s)
  (.ofValues r.1, r.2)

/-- Models `impl CommandService for Hmdel`: per-key `del`, deleted value or
default; always a status-200 response. -/
def hmdelExecute {S : Type} (p : StoragePort S) (s : S) (table : String)
    (keys : List String) : CommandResponse × S :=
  let r := keys.foldl (fun (acc : List Value × S) key =>
    match p.del acc.2 table key with
    | (.ok (some v), s') => (acc.1 ++ [v], s')
    | (.ok none, s') => (acc.1 ++ [Value.null], s')
    | (.error _, s') => (acc.1 ++ [Value.null], s')) ([], s)
  (.ofValues r.1, r.2)

/-- Models `impl CommandService for Hmexist`: per-key `contains`, a bool value on
success and `From<KvError> for Value` — the default value — on error;
always a status-200 response. -/
def hmexistExecute {S : Type} (p : StoragePort S) (s : S) (table : String)
    (keys : List String) : CommandResponse × S :=
  let r := keys.foldl (fun (acc : List Value × S) key =>
    match p.contains acc.2 table key with
    | (.ok b, s') => (acc.1 ++ [Value.ofBool b], s')
    | (.error e, s') => (acc.1 ++ [Value.ofErr e], s')) ([], s)
  (.ofValues r.1, r.2)

/-- Models `impl CommandService for RequestData`: the source's match covers the
nine one-shot variants; the streaming variants sit behind the
`is_streaming` guard of `dispatch` and are unreachable — they are mapped to
an internal-error response only to make the embedding total. -/
def RequestData.execute {S : Type} (rd : RequestData) (p : StoragePort S)
    (s : S) : CommandResponse × S :=
  match rd with
  | .hget t k => hgetExecute p s t k
  | .hset t pr => hsetExecute p s t pr
  | .hdel t k => hdelExecute p s t k
  | .hexist t k => hexistExecute p s t k
  | .hgetall t => hgetallExecute p s t
  | .hmget t ks => hmgetExecute p s t ks
  | .hmset t prs => hmsetExecute p s t prs
  | .hmdel t ks => hmdelExecute p s t ks
  | .hmexist t ks => hmexistExecute p s t ks
  | .subscribe _ => (.ofError (.Internal "unreachable"), s)
  | .publish _ _ => (.ofError (.Internal "unreachable"), s)
  | .unsubscribe _ _ => (.ofError (.Internal "unreachable"), s)

/-- Models `CommandRequest::dispatch` (src/pb/mod.rs): streaming variants are
rejected with `InvalidCommand("Not command")` without touching the store;
requests with no data are rejected with
`InvalidCommand("Request has no data")`; one-shot variants are executed
against the storage port. -/
def CommandRequest.dispatch {S : Type} (req : CommandRequest)
    (p : StoragePort S) (s : S) : CommandResponse × S :=
  match req.requestData with
  | some rd =>
      if rd.isStreaming then (.ofError (.InvalidCommand "Not command"), s)
      else rd.execute p s
  | none => (.ofError (.InvalidCommand "Request has no data"), s)

/- ------------------------------------------------------------------ -/
/- Broadcaster (src/service/topic.rs, src/service/topic_service.rs)    -/
/- ------------------------------------------------------------------ -/

/-- Association-list lookup; models `DashMap::get`. -/
def assocGet {α β : Type} [DecidableEq α] (k : α) : List (α × β) → Option β
| [] => none
| (k', v) :: rest => if k' = k then some v else assocGet k rest

/-- Association-list insert-or-overwrite; models `DashMap::insert`. -/
def assocPut {α β : Type} [DecidableEq α] (k : α) (v : β) :
    List (α × β) → List (α × β)
| [] => [(k, v)]
| (k', v') :: rest =>
    if k' = k then (k, v) :: rest else (k', v') :: assocPut k v rest

/-- Association-list removal; models `DashMap::remove`. -/
def assocDrop {α β : Type} [DecidableEq α] (k : α) :
    List (α × β) → List (α × β)
| [] => []
| (k', v') :: rest => if k' = k then rest else (k', v') :: assocDrop k rest

/-- Append an element to the list bound at `k`, if `k` is bound; models a
`send` on the mailbox registered for a subscription id. -/
def assocAppend {α β : Type} [DecidableEq α] (k : α) (x : β) :
    List (α × List β) → List (α × List β)
| [] => []
| (k', xs) :: rest =>
    if k' = k then (k', xs ++ [x]) :: rest else (k', xs) :: assocAppend k x rest

/-- Insert into an id set; models `DashSet::insert`. -/
def setInsert (id : Nat) (s : List Nat) : List Nat :=
  if id ∈ s then s else s ++ [id]

/-- The broadcaster state (src/service/topic.rs): the process-wide
`NEXT_ID` atomic counter, the `topic → id set` map, the set of ids present
in the `subscriptions` map (which holds the mailbox senders), and — owned
by the receivers on the client side, surviving sender removal — each
subscription's mailbox contents in enqueue order.  Sends performed by
spawned tasks (the id-discovery packet, the unsubscribe ack, publish
fan-out) are modelled as immediate enqueues in program order. -/
structure PubSub : Type where
  nextId : Nat
  topics : List (String × List Nat)
  subs : List Nat
  mailboxes : List (Nat × List CommandResponse)
deriving DecidableEq

/-- Models `PubSub::default()` together with the initial `NEXT_ID` value 1. -/
def PubSub.init : PubSub := ⟨1, [], [], []⟩

/-- The id-discovery packet enqueued first on every new subscription:
`(id as i64).into()` then `val.into()`, i.e. status 200 with
`values = [id]`. -/
def idMessage (id : Nat) : CommandResponse :=
  CommandResponse.ofValue (Value.ofInt id)

/-- Models `Topic::subscribe` for `Arc<PubSub>` (src/service/topic.rs): allocate
the next id from the wrapping `AtomicU32` (`get_next_subscription_id`),
insert it into the topic's id set (creating the set if absent), create the
mailbox — whose first enqueued message is the id-discovery packet — and
register the sender.  Returns the new id, which identifies the receiver. -/
def PubSub.subscribe (ps : PubSub) (name : String) : Nat × PubSub :=
  let id := ps.nextId
  (id,
    { nextId := (ps.nextId + 1) % 2 ^ 32
      topics :=
        match assocGet name ps.topics with
        | some s => assocPut name (setInsert id s) ps.topics
        | none => assocPut name [id] ps.topics
      subs := setInsert id ps.subs
      mailboxes := assocPut id [idMessage id] ps.mailboxes })

/-- Models `Topic::unsubscribe` (src/service/topic.rs): remove the id from the
topic's set, dropping the topic if the set becomes empty; then remove the
id from the subscriptions map — if a sender was present, enqueue the
status-0 unsubscribe ack on its mailbox and return the id, otherwise
return `NotFound(topic, "subscription {id}")`. -/
def PubSub.unsubscribe (ps : PubSub) (name : String) (id : Nat) :
    Except KvError Nat × PubSub :=
  let topics' :=
    match assocGet name ps.topics with
    | some s =>
      let s' := s.erase id
      if s' = [] then assocDrop name ps.topics else assocPut name s' ps.topics
    | none => ps.topics
  if id ∈ ps.subs then
    (.ok id,
      { ps with
          topics := topics'
          subs := ps.subs.erase id
          mailboxes := assocAppend id CommandResponse.unsubscribeAck ps.mailboxes })
  else
    (.error (.NotFound name ("subscription " ++ toString id)),
      { ps with topics := topics' })

/-- Models `Topic::publish` (src/service/topic.rs): snapshot the topic's id set
and send the shared response to every id whose sender is still registered.
Send failures from dropped receivers, and the cleanup they trigger, do not
arise in the embedding — receivers are never dropped. -/
def PubSub.publish (ps : PubSub) (name : String) (value : CommandResponse) :
    PubSub :=
  match assocGet name ps.topics with
  | some ids =>
    { ps with
        mailboxes := ids.foldl (fun mbs id =>
          if id ∈ ps.subs then assocAppend id value mbs else mbs) ps.mailboxes }
  | none => ps

/-- Models `impl TopicService for Unsubscribe` (src/service/topic_service.rs):
`Ok → CommandResponse::ok()`, `Err e → e.into()`; the response is emitted
as a single-element stream. -/
def unsubscribeExecute (ps : PubSub) (topic : String) (id : Nat) :
    CommandResponse × PubSub :=
  match ps.unsubscribe topic id with
  | (.ok _, ps') => (CommandResponse.okResp, ps')
  | (.error e, ps') => (CommandResponse.ofError e, ps')

/-- Models `impl TopicService for Publish` (src/service/topic_service.rs): fan out
asynchronously, acknowledge with `CommandResponse::ok()`. -/
def publishExecute (ps : PubSub) (topic : String) (data : List Value) :
    CommandResponse × PubSub :=
  (CommandResponse.okResp, ps.publish topic (.ofValues data))

/-- A streaming response: a single-element stream (`stream::once` /
`res.into()`) or the receiver stream of a subscription's mailbox. -/
inductive StreamingResponse : Type
| once (r : CommandResponse)
| receiver (id : Nat)
deriving DecidableEq

/-- Models `TopicService::execute` over the one-of: delegate to the per-variant
implementations; one-shot variants sit behind the `is_streaming` guard of
`dispatch_streaming` and are unreachable — mapped to an internal-error
stream only for totality. -/
def topicExecute (rd : RequestData) (ps : PubSub) :
    StreamingResponse × PubSub :=
  match rd with
  | .subscribe t =>
    let r := ps.subscribe t
    (.receiver r.1, r.2)
  | .unsubscribe t i =>
    let r := unsubscribeExecute ps t i
    (.once r.1, r.2)
  | .publish t d =>
    let r := publishExecute ps t d
    (.once r.1, r.2)
  | _ => (.once (.ofError (.Internal "unreachable")), ps)

/-- Models `CommandRequest::dispatch_streaming` (src/pb/mod.rs): one-shot variants
are rejected with a single-element stream carrying
`InvalidCommand("Not streaming command")` without touching the topic
registry; requests with no data are rejected likewise; streaming variants
go to the topic service. -/
def CommandRequest.dispatchStreaming (req : CommandRequest) (ps : PubSub) :
    StreamingResponse × PubSub :=
  match req.requestData with
  | some rd =>
      if rd.isStreaming = false then
        (.once (.ofError (.InvalidCommand "Not streaming command")), ps)
      else topicExecute rd ps
  | none => (.once (.ofError (.InvalidCommand "Request has no data")), ps)

/-- Sequences of broadcaster operations, for stating process-lifetime
invariants over the id generator. -/
inductive TopicOp : Type
| sub (name : String)
| unsub (name : String) (id : Nat)
| pub (name : String) (data : List Value)
deriving DecidableEq

/-- Run a sequence of subscribe/unsubscribe/publish operations, collecting
the subscription ids issued by the subscribes in order. -/
def runOps : List TopicOp → PubSub → PubSub × List Nat
| [], ps => (ps, [])
| .sub n :: rest, ps =>
    let r := ps.subscribe n
    let rr := runOps rest r.2
    (rr.1, r.1 :: rr.2)
| .unsub n i :: rest, ps =>
    runOps rest (ps.unsubscribe n i).2
| .pub n d :: rest, ps =>
    runOps rest (ps.publish n (.ofValues d))

/-- The ids issued by a sequence of operations started on a fresh process. -/
def issuedIds (ops : List TopicOp) : List Nat :=
  (runOps ops PubSub.init).2

/-- The number of subscribes in a sequence of operations. -/
def countSubs : List TopicOp → Nat
| [] => 0
| .sub _ :: rest => countSubs rest + 1
| .unsub _ _ :: rest => countSubs rest
| .pub _ _ :: rest => countSubs rest

/- ------------------------------------------------------------------ -/
/- StreamResult (src/network/stream_result.rs)                         -/
/- ------------------------------------------------------------------ -/

/-- Outcome of `StreamResult::new` as determined by the first stream item:
the subscription id exposed to the caller, an error return, or a panic
(the `unwrap` on the integer conversion). -/
inductive StreamStart : Type
| ok (id : Nat)
| fail (e : KvError)
| panicked
deriving DecidableEq

/-- Models `StreamResult::new` (src/network/stream_result.rs), as a function of
the first item of the stream (`stream.next().await`): a status-200 item
with a non-empty value list whose head is an integer yields `Ok(id as u32)`
(the `i64` is truncated to 32 bits); a status-200 item with an empty value
list, an end-of-stream, an error item and a non-200 status all return
`Internal("Invalid stream")`; a status-200 item whose first value is not an
integer panics on `try_into().unwrap()`. -/
def streamResultNew : Option (Except KvError CommandResponse) → StreamStart
| some (.ok r) =>
    if r.status = 200 then
      match r.values with
      | [] => .fail (.Internal "Invalid stream")
      | v0 :: _ =>
        match v0.value with
        | some (.integer i) => .ok (i % (2 ^ 32 : Int)).toNat
        | _ => .panicked
    else .fail (.Internal "Invalid stream")
| _ => .fail (.Internal "Invalid stream")

/- ------------------------------------------------------------------ -/
/- In-memory storage backend                                           -/
/- ------------------------------------------------------------------ -/

/-- Modelled from the spec: the in-memory `Storage` backend (`MemTable`,
`src/storage/memory.rs`) is not among the sources; §6.2 of the spec gives
the port contract — `get` returns the current value, `set` stores the value
and returns the previous one, `del` removes and returns the previous one,
`contains` tests presence, `get_all` lists the table's pairs; all
operations are infallible on the in-memory table.  A `MemTable` maps table
names to per-table key/value association lists. -/
def MemTable : Type := List (String × List (String × Value))

/-- Models `MemTable` lookup. -/
def memGet (s : MemTable) (table key : String) : Option Value :=
  (assocGet table s).bind (assocGet key)

/-- Models `MemTable` insert-or-overwrite, creating the table on demand. -/
def memSet (s : MemTable) (table key : String) (v : Value) : MemTable :=
  assocPut table (assocPut key v ((assocGet table s).getD [])) s

/-- Models `MemTable` removal. -/
def memDel (s : MemTable) (table key : String) : MemTable :=
  assocPut table (assocDrop key ((assocGet table s).getD [])) s

/-- The `Storage` port of the in-memory backend (modelled from spec §6.2,
infallible). -/
def memPort : StoragePort MemTable where
  get s t k := (.ok (memGet s t k), s)
  set s t k v := (.ok (memGet s t k), memSet s t k v)
  contains s t k := (.ok (memGet s t k).isSome, s)
  del s t k := (.ok (memGet s t k), memDel s t k)
  getAll s t :=
    (.ok (((assocGet t s).getD []).map (fun kv => Kvpair.new kv.1 kv.2)), s)

/- ------------------------------------------------------------------ -/
/- Association-list lemmas                                             -/
/- ------------------------------------------------------------------ -/

theorem assocGet_put_self {α β : Type} [DecidableEq α] (k : α) (v : β)
    (l : List (α × β)) : assocGet k (assocPut k v l) = some v := by
  induction l with
  | nil => simp [assocGet, assocPut]
  | cons hd tl ih =>
    by_cases h : hd.1 = k
    · simp [assocPut, h, assocGet]
    · simpa [assocPut, h, assocGet] using ih

theorem assocGet_put_other {α β : Type} [DecidableEq α] {k k' : α} (v : β)
    (l : List (α × β)) (h : k' ≠ k) :
    assocGet k' (assocPut k v l) = assocGet k' l := by
  induction l with
  | nil => simp [assocGet, assocPut, Ne.symm h]
  | cons hd tl ih =>
    by_cases hh : hd.1 = k
    · subst hh
      simp [assocPut, assocGet, Ne.symm h]
    · by_cases hk' : hd.1 = k'
      · simp [assocPut, hh, assocGet, hk', h]
      · simpa [assocPut, hh, assocGet, hk'] using ih

theorem assocPut_self_eq {α β : Type} [DecidableEq α] {k : α} {v : β}
    {l : List (α × β)} (h : assocGet k l = some v) : assocPut k v l = l := by
  induction l with
  | nil => simp [assocGet] at h
  | cons hd tl ih =>
    by_cases hh : hd.1 = k
    · rw [assocGet] at h
      rw [if_pos hh] at h
      cases h
      cases hd
      simp_all [assocPut]
    · rw [assocGet, if_neg hh] at h
      cases hd
      simp_all [assocPut]

theorem assocGet_mem {α β : Type} [DecidableEq α] {k : α} {v : β}
    {l : List (α × β)} (h : assocGet k l = some v) : (k, v) ∈ l := by
  induction l with
  | nil => simp [assocGet] at h
  | cons hd tl ih =>
    by_cases hh : hd.1 = k
    · rw [assocGet, if_pos hh] at h
      cases h
      cases hd
      simp_all
    · rw [assocGet, if_neg hh] at h
      exact List.mem_cons_of_mem _ (ih h)

theorem assocGet_append_head {α : Type} [DecidableEq α] {k : α} (j : α)
    (x : CommandResponse) {d : CommandResponse} {t : List CommandResponse}
    (l : List (α × List CommandResponse))
    (h : assocGet k l = some (d :: t)) :
    ∃ t2, assocGet k (assocAppend j x l) = some (d :: t2) := by
  induction l with
  | nil => simp [assocGet] at h
  | cons hd tl ih =>
    by_cases hj : hd.1 = j
    · by_cases hk : hd.1 = k
      · rw [assocGet, if_pos hk] at h
        cases hd
        subst hj
        refine ⟨t ++ [x], ?_⟩
        simp_all [assocAppend, assocGet]
      · cases hd
        rw [assocGet, if_neg hk] at h
        refine ⟨t, ?_⟩
        simp_all [assocAppend, assocGet]
    · by_cases hk : hd.1 = k
      · cases hd
        rw [assocGet, if_pos hk] at h
        refine ⟨t, ?_⟩
        simp_all [assocAppend, assocGet]
      · cases hd
        rw [assocGet, if_neg hk] at h
        obtain ⟨t2, ht2⟩ := ih h
        refine ⟨t2, ?_⟩
        simp_all [assocAppend, assocGet]

theorem memGet_set_self (s : MemTable) (t k : String) (v : Value) :
    memGet (memSet s t k v) t k = some v := by
  unfold memGet memSet
  rw [assocGet_put_self]
  simp [assocGet_put_self]

/- ------------------------------------------------------------------ -/
/- Claims about StreamResult                                           -/
/- ------------------------------------------------------------------ -/

/-- Counterexample to C5: a first message with status 200 and a non-empty
values list whose first element is a string (not an integer) makes
`StreamResult::new` panic on `try_into().unwrap()` — it does not return
`Internal("Invalid stream")` as the claim states. -/
theorem C5_counterexample :
    streamResultNew (some (.ok ⟨200, "", [Value.ofStr "x"], []⟩)) =
      .panicked ∧
    streamResultNew (some (.ok ⟨200, "", [Value.ofStr "x"], []⟩)) ≠
      .fail (.Internal "Invalid stream") :=
  ⟨rfl, by decide⟩

/-- C5 amended: `StreamResult::new` succeeds, exposing the first value as
the subscription id (the `i64` truncated to `u32`), exactly when the first
message has status 200 and a non-empty values list headed by an integer;
end-of-stream, an error item, a non-200 status and an empty values list
yield `Internal("Invalid stream")`; a status-200 message whose first value
is not an integer panics on the unchecked conversion instead of returning
the error. -/
theorem C5_stream_result_new (first : Option (Except KvError CommandResponse))
    (r : CommandResponse) (i : Int) (v0 : Value) (tail : List Value)
    (e : KvError) :
    (first = some (.ok r) → r.status = 200 →
      r.values = Value.ofInt i :: tail →
      streamResultNew first = .ok (i % (2 ^ 32 : Int)).toNat) ∧
    (first = some (.ok r) → r.status = 200 → r.values = v0 :: tail →
      (∀ j : Int, v0.value ≠ some (.integer j)) →
      streamResultNew first = .panicked) ∧
    (first = none →
      streamResultNew first = .fail (.Internal "Invalid stream")) ∧
    (first = some (.error e) →
      streamResultNew first = .fail (.Internal "Invalid stream")) ∧
    (first = some (.ok r) → r.status ≠ 200 →
      streamResultNew first = .fail (.Internal "Invalid stream")) ∧
    (first = some (.ok r) → r.status = 200 → r.values = [] →
      streamResultNew first = .fail (.Internal "Invalid stream")) := by
  refine ⟨?_, ?_, ?_, ?_, ?_, ?_⟩
  · intro hf hs hv
    subst hf
    simp [streamResultNew, hs, hv, Value.ofInt]
  · intro hf hs hv hni
    subst hf
    obtain ⟨ov⟩ := v0
    match ov with
    | none => simp [streamResultNew, hs, hv]
    | some (.str s) => simp [streamResultNew, hs, hv]
    | some (.integer j) => exact absurd rfl (hni j)
    | some (.binary b) => simp [streamResultNew, hs, hv]
    | some (.boolean b) => simp [streamResultNew, hs, hv]
    | some (.float b) => simp [streamResultNew, hs, hv]
  · intro hf; subst hf; rfl
  · intro hf; subst hf; rfl
  · intro hf hs
    subst hf
    simp [streamResultNew, hs]
  · intro hf hs hv
    subst hf
    simp [streamResultNew, hs, hv]

/-- Witness for C5: a status-200 first message carrying the integer 42
yields id 42; an end-of-stream yields the invalid-stream error. -/
theorem C5_stream_result_new_witness :
    streamResultNew (some (.ok ⟨200, "", [Value.ofInt 42], []⟩)) = .ok 42 ∧
    streamResultNew none = .fail (.Internal "Invalid stream") :=
  ⟨(C5_stream_result_new (some (.ok ⟨200, "", [Value.ofInt 42], []⟩))
      ⟨200, "", [Value.ofInt 42], []⟩ 42 Value.null [] (.Internal "")).1
      rfl rfl rfl,
   (C5_stream_result_new none ⟨200, "", [], []⟩ 0 Value.null []
      (.Internal "")).2.2.1 rfl⟩

/- ------------------------------------------------------------------ -/
/- Claim C7: Hset / Hget round-trip                                    -/
/- ------------------------------------------------------------------ -/

/-- C7: dispatching Hset for an absent key returns status 200 with
`values = [null]`; a subsequent Hget of the key returns status 200 with the
stored value; a second Hset of the same key returns the value the first
Hset stored. -/
theorem C7_hset_hget (s0 : MemTable) (t k : String) (v v2 : Value)
    (habsent : memGet s0 t k = none) :
    CommandRequest.dispatch ⟨some (.hset t (some (Kvpair.new k v)))⟩ memPort s0 =
      (.ofValue Value.null, memSet s0 t k v) ∧
    (CommandResponse.ofValue Value.null).status = 200 ∧
    (CommandResponse.ofValue Value.null).values = [Value.null] ∧
    CommandRequest.dispatch ⟨some (.hget t k)⟩ memPort (memSet s0 t k v) =
      (.ofValue v, memSet s0 t k v) ∧
    (CommandResponse.ofValue v).status = 200 ∧
    (CommandResponse.ofValue v).values = [v] ∧
    (CommandRequest.dispatch ⟨some (.hset t (some (Kvpair.new k v2)))⟩ memPort
      (memSet s0 t k v)).1 = .ofValue v := by
  have hget := memGet_set_self s0 t k v
  refine ⟨?_, rfl, rfl, ?_, rfl, rfl, ?_⟩
  · simp [CommandRequest.dispatch, RequestData.isStreaming, RequestData.execute,
      hsetExecute, memPort, habsent, Kvpair.new]
  · simp [CommandRequest.dispatch, RequestData.isStreaming, RequestData.execute,
      hgetExecute, memPort, hget]
  · simp [CommandRequest.dispatch, RequestData.isStreaming, RequestData.execute,
      hsetExecute, memPort, hget, Kvpair.new]

/-- Witness for C7: the scenario at table `"t1"`, key `"k1"`, values
`"v1"` then `"v2"`, on the empty store. -/
theorem C7_hset_hget_witness :
    memGet [] "t1" "k1" = none ∧
    (CommandRequest.dispatch ⟨some (.hset "t1" (some (Kvpair.new "k1"
        (Value.ofStr "v1"))))⟩ memPort [] =
      (.ofValue Value.null, memSet [] "t1" "k1" (Value.ofStr "v1")) ∧
    (CommandResponse.ofValue Value.null).status = 200 ∧
    (CommandResponse.ofValue Value.null).values = [Value.null] ∧
    CommandRequest.dispatch ⟨some (.hget "t1" "k1")⟩ memPort
        (memSet [] "t1" "k1" (Value.ofStr "v1")) =
      (.ofValue (Value.ofStr "v1"), memSet [] "t1" "k1" (Value.ofStr "v1")) ∧
    (CommandResponse.ofValue (Value.ofStr "v1")).status = 200 ∧
    (CommandResponse.ofValue (Value.ofStr "v1")).values = [Value.ofStr "v1"] ∧
    (CommandRequest.dispatch ⟨some (.hset "t1" (some (Kvpair.new "k1"
        (Value.ofStr "v2"))))⟩ memPort
      (memSet [] "t1" "k1" (Value.ofStr "v1"))).1 = .ofValue (Value.ofStr "v1")) :=
  ⟨rfl, C7_hset_hget [] "t1" "k1" (Value.ofStr "v1") (Value.ofStr "v2") rfl⟩

/- ------------------------------------------------------------------ -/
/- Claim C10: dispatch through the wrong entry point                   -/
/- ------------------------------------------------------------------ -/

/-- C10: `dispatch` on a streaming variant returns the single status-400
`InvalidCommand("Not command")` response and leaves the store untouched;
`dispatch_streaming` on a one-shot variant returns a single-element stream
carrying the status-400 `InvalidCommand("Not streaming command")` response
and leaves the topic registry untouched. -/
theorem C10_wrong_class_dispatch {S : Type} (p : StoragePort S) (s : S)
    (ps : PubSub) (rd rd' : RequestData)
    (hs : rd.isStreaming = true) (ho : rd'.isStreaming = false) :
    CommandRequest.dispatch ⟨some rd⟩ p s =
      (.ofError (.InvalidCommand "Not command"), s) ∧
    CommandRequest.dispatchStreaming ⟨some rd'⟩ ps =
      (.once (.ofError (.InvalidCommand "Not streaming command")), ps) ∧
    (CommandResponse.ofError (.InvalidCommand "Not command")).status = 400 ∧
    (CommandResponse.ofError
      (.InvalidCommand "Not streaming command")).status = 400 := by
  refine ⟨?_, ?_, rfl, rfl⟩
  · simp [CommandRequest.dispatch, hs]
  · simp [CommandRequest.dispatchStreaming, ho]

/-- Witness for C10: `Subscribe` through `dispatch` and `Hget` through
`dispatch_streaming`, both on concrete states. -/
theorem C10_wrong_class_dispatch_witness :
    (RequestData.subscribe "top").isStreaming = true ∧
    (RequestData.hget "t1" "k1").isStreaming = false ∧
    (CommandRequest.dispatch ⟨some (.subscribe "top")⟩ memPort [] =
      (.ofError (.InvalidCommand "Not command"), ([] : MemTable)) ∧
    CommandRequest.dispatchStreaming ⟨some (.hget "t1" "k1")⟩ PubSub.init =
      (.once (.ofError (.InvalidCommand "Not streaming command")), PubSub.init) ∧
    (CommandResponse.ofError (.InvalidCommand "Not command")).status = 400 ∧
    (CommandResponse.ofError
      (.InvalidCommand "Not streaming command")).status = 400) :=
  ⟨rfl, rfl,
   C10_wrong_class_dispatch memPort [] PubSub.init (.subscribe "top")
     (.hget "t1" "k1") rfl rfl⟩

/- ------------------------------------------------------------------ -/
/- Claim C4: storage errors in one-shot commands                       -/
/- ------------------------------------------------------------------ -/

/-- A storage port over a unit state whose every operation fails with a
fixed error. -/
def errPort (e : KvError) : StoragePort Unit where
  get _ _ _ := (.error e, ())
  set _ _ _ _ := (.error e, ())
  contains _ _ _ := (.error e, ())
  del _ _ _ := (.error e, ())
  getAll _ _ := (.error e, ())

/-- A concrete storage error used in counterexamples and witnesses. -/
def e0 : KvError := .StorageError "get" "t1" "k1" "boom"

/-- Counterexample to C4: with a storage port whose `get` fails, the
dispatched Hmget response has status 200 and a null value — the per-key
storage error is absorbed, not surfaced as a 500 response with the error's
display message. -/
theorem C4_counterexample :
    CommandRequest.dispatch ⟨some (.hmget "t1" ["k1"])⟩ (errPort e0) () =
      (⟨200, "", [Value.null], []⟩, ()) ∧
    (CommandRequest.dispatch ⟨some (.hmget "t1" ["k1"])⟩
      (errPort e0) ()).1.status ≠ 500 :=
  ⟨rfl, by decide⟩

theorem hmget_all_err {S : Type} (p : StoragePort S) (t : String)
    (h : ∀ s2 k2, ∃ e2, p.get s2 t k2 = (.error e2, s2)) :
    ∀ (keys : List String) (acc : List Value) (s : S),
    keys.foldl (fun (acc : List Value × S) key =>
      match p.get acc.2 t key with
      | (.ok (some v), s') => (acc.1 ++ [v], s')
      | (.ok none, s') => (acc.1 ++ [Value.null], s')
      | (.error _, s') => (acc.1 ++ [Value.null], s')) (acc, s) =
      (acc ++ List.replicate keys.length Value.null, s) := by
  intro keys
  induction keys with
  | nil => intro acc s; simp
  | cons hd tl ih =>
    intro acc s
    obtain ⟨e2, he2⟩ := h s hd
    rw [List.foldl_cons, he2, ih]
    simp [List.replicate_succ]

theorem hmset_all_err {S : Type} (p : StoragePort S) (t : String)
    (h : ∀ s2 k2 v2, ∃ e2, p.set s2 t k2 v2 = (.error e2, s2)) :
    ∀ (pairs : List Kvpair) (acc : List Value) (s : S),
    pairs.foldl (fun (acc : List Value × S) pr =>
      match p.set acc.2 t pr.key (pr.value.getD Value.null) with
      | (.ok (some v), s') => (acc.1 ++ [v], s')
      | (.ok none, s') => (acc.1 ++ [Value.null], s')
      | (.error _, s') => (acc.1 ++ [Value.null], s')) (acc, s) =
      (acc ++ List.replicate pairs.length Value.null, s) := by
  intro pairs
  induction pairs with
  | nil => intro acc s; simp
  | cons hd tl ih =>
    intro acc s
    obtain ⟨e2, he2⟩ := h s hd.key (hd.value.getD Value.null)
    rw [List.foldl_cons, he2, ih]
    simp [List.replicate_succ]

theorem hmdel_all_err {S : Type} (p : StoragePort S) (t : String)
    (h : ∀ s2 k2, ∃ e2, p.del s2 t k2 = (.error e2, s2)) :
    ∀ (keys : List String) (acc : List Value) (s : S),
    keys.foldl (fun (acc : List Value × S) key =>
      match p.del acc.2 t key with
      | (.ok (some v), s') => (acc.1 ++ [v], s')
      | (.ok none, s') => (acc.1 ++ [Value.null], s')
      | (.error _, s') => (acc.1 ++ [Value.null], s')) (acc, s) =
      (acc ++ List.replicate keys.length Value.null, s) := by
  intro keys
  induction keys with
  | nil => intro acc s; simp
  | cons hd tl ih =>
    intro acc s
    obtain ⟨e2, he2⟩ := h s hd
    rw [List.foldl_cons, he2, ih]
    simp [List.replicate_succ]

theorem hmexist_all_err {S : Type} (p : StoragePort S) (t : String)
    (h : ∀ s2 k2, ∃ e2, p.contains s2 t k2 = (.error e2, s2)) :
    ∀ (keys : List String) (acc : List Value) (s : S),
    keys.foldl (fun (acc : List Value × S) key =>
      match p.contains acc.2 t key with
      | (.ok b, s') => (acc.1 ++ [Value.ofBool b], s')
      | (.error e, s') => (acc.1 ++ [Value.ofErr e], s')) (acc, s) =
      (acc ++ List.replicate keys.length Value.null, s) := by
  intro keys
  induction keys with
  | nil => intro acc s; simp
  | cons hd tl ih =>
    intro acc s
    obtain ⟨e2, he2⟩ := h s hd
    rw [List.foldl_cons, he2, ih]
    simp [List.replicate_succ, Value.ofErr]

/-- C4 corrected: a storage error surfaces as the error response — status
500 with the error's display message for storage errors — only for the
whole-command calls of Hget, Hset, Hdel, Hexist and Hgetall; Hmget, Hmset
and Hmdel absorb per-key storage errors as null values inside a status-200
response, and Hmexist maps per-key errors through the error-to-value
conversion to the same null values. -/
theorem C4_storage_error (S : Type) (p : StoragePort S) (s s' : S)
    (t k : String) (v : Value) (ks : List String) (prs : List Kvpair)
    (e : KvError) (op d : String) :
    (p.get s t k = (.error e, s') →
      CommandRequest.dispatch ⟨some (.hget t k)⟩ p s = (.ofError e, s')) ∧
    (p.set s t k v = (.error e, s') →
      CommandRequest.dispatch ⟨some (.hset t (some (Kvpair.new k v)))⟩ p s =
        (.ofError e, s')) ∧
    (p.del s t k = (.error e, s') →
      CommandRequest.dispatch ⟨some (.hdel t k)⟩ p s = (.ofError e, s')) ∧
    (p.contains s t k = (.error e, s') →
      CommandRequest.dispatch ⟨some (.hexist t k)⟩ p s = (.ofError e, s')) ∧
    (p.getAll s t = (.error e, s') →
      CommandRequest.dispatch ⟨some (.hgetall t)⟩ p s = (.ofError e, s')) ∧
    ((CommandResponse.ofError (.StorageError op t k d)).status = 500 ∧
      (CommandResponse.ofError (.SledError d)).status = 500 ∧
      (CommandResponse.ofError e).message = e.display) ∧
    ((∀ s2 k2, ∃ e2, p.get s2 t k2 = (.error e2, s2)) →
      CommandRequest.dispatch ⟨some (.hmget t ks)⟩ p s =
        (.ofValues (List.replicate ks.length Value.null), s)) ∧
    ((∀ s2 k2 v2, ∃ e2, p.set s2 t k2 v2 = (.error e2, s2)) →
      CommandRequest.dispatch ⟨some (.hmset t prs)⟩ p s =
        (.ofValues (List.replicate prs.length Value.null), s)) ∧
    ((∀ s2 k2, ∃ e2, p.del s2 t k2 = (.error e2, s2)) →
      CommandRequest.dispatch ⟨some (.hmdel t ks)⟩ p s =
        (.ofValues (List.replicate ks.length Value.null), s)) ∧
    ((∀ s2 k2, ∃ e2, p.contains s2 t k2 = (.error e2, s2)) →
      CommandRequest.dispatch ⟨some (.hmexist t ks)⟩ p s =
        (.ofValues (List.replicate ks.length Value.null), s)) := by
  refine ⟨?_, ?_, ?_, ?_, ?_, ⟨rfl, rfl, rfl⟩, ?_, ?_, ?_, ?_⟩
  · intro h
    simp [CommandRequest.dispatch, RequestData.isStreaming, RequestData.execute,
      hgetExecute, h]
  · intro h
    simp [CommandRequest.dispatch, RequestData.isStreaming, RequestData.execute,
      hsetExecute, Kvpair.new, h]
  · intro h
    simp [CommandRequest.dispatch, RequestData.isStreaming, RequestData.execute,
      hdelExecute, h]
  · intro h
    simp [CommandRequest.dispatch, RequestData.isStreaming, RequestData.execute,
      hexistExecute, h]
  · intro h
    simp [CommandRequest.dispatch, RequestData.isStreaming, RequestData.execute,
      hgetallExecute, h]
  · intro h
    have := hmget_all_err p t h ks [] s
    simp [CommandRequest.dispatch, RequestData.isStreaming, RequestData.execute,
      hmgetExecute, this]
  · intro h
    have := hmset_all_err p t h prs [] s
    simp [CommandRequest.dispatch, RequestData.isStreaming, RequestData.execute,
      hmsetExecute, this]
  · intro h
    have := hmdel_all_err p t h ks [] s
    simp [CommandRequest.dispatch, RequestData.isStreaming, RequestData.execute,
      hmdelExecute, this]
  · intro h
    have := hmexist_all_err p t h ks [] s
    simp [CommandRequest.dispatch, RequestData.isStreaming, RequestData.execute,
      hmexistExecute, this]

/-- Witness for C4: the failing port `errPort e0` drives both behaviours —
Hget surfaces the 500 error verbatim, Hmget returns 200 with nulls. -/
theorem C4_storage_error_witness :
    (errPort e0).get () "t1" "k1" = (.error e0, ()) ∧
    CommandRequest.dispatch ⟨some (.hget "t1" "k1")⟩ (errPort e0) () =
      (.ofError e0, ()) ∧
    (CommandResponse.ofError e0).status = 500 ∧
    CommandRequest.dispatch ⟨some (.hmget "t1" ["k1", "k2"])⟩ (errPort e0) () =
      (.ofValues [Value.null, Value.null], ()) := by
  have h := C4_storage_error Unit (errPort e0) () () "t1" "k1" Value.null
    ["k1", "k2"] [] e0 "get" "boom"
  exact ⟨rfl, h.1 rfl, rfl,
    h.2.2.2.2.2.2.1 (fun s2 k2 => ⟨e0, rfl⟩)⟩

/- ------------------------------------------------------------------ -/
/- Claim C6: subscription id generation                                -/
/- ------------------------------------------------------------------ -/

theorem unsubscribe_nextId (ps : PubSub) (n : String) (i : Nat) :
    ((ps.unsubscribe n i).2).nextId = ps.nextId := by
  unfold PubSub.unsubscribe
  split <;> split <;> rfl

theorem publish_nextId (ps : PubSub) (n : String) (v : CommandResponse) :
    (ps.publish n v).nextId = ps.nextId := by
  unfold PubSub.publish
  split <;> rfl

/-- The ids issued by a run are successive values of the wrapping 32-bit
counter, starting from the current counter value. -/
theorem runOps_issued : ∀ (ops : List TopicOp) (ps : PubSub),
    ps.nextId < 2 ^ 32 →
    (runOps ops ps).2 =
      (List.range (countSubs ops)).map (fun i => (ps.nextId + i) % 2 ^ 32) := by
  intro ops
  induction ops with
  | nil => intro ps _; simp [runOps, countSubs]
  | cons hd tl ih =>
    intro ps h
    cases hd with
    | sub n =>
      show (ps.nextId :: (runOps tl (ps.subscribe n).2).2) = _
      have hlt : ((ps.subscribe n).2).nextId < 2 ^ 32 := by
        simp only [PubSub.subscribe]
        exact Nat.mod_lt _ (by norm_num)
      rw [ih _ hlt]
      show _ = (List.range (countSubs tl + 1)).map _
      rw [List.range_succ_eq_map, List.map_cons, List.map_map]
      have hzero : (ps.nextId + 0) % 2 ^ 32 = ps.nextId := by omega
      rw [hzero]
      congr 1
      apply List.map_congr_left
      intro i _
      show (((ps.subscribe n).2).nextId + i) % 2 ^ 32 = _
      simp only [PubSub.subscribe, Function.comp]
      omega
    | unsub n i =>
      show (runOps tl (ps.unsubscribe n i).2).2 = _
      rw [ih _ (by rw [unsubscribe_nextId]; exact h)]
      simp only [unsubscribe_nextId, countSubs]
    | pub n d =>
      show (runOps tl (ps.publish n (.ofValues d))).2 = _
      rw [ih _ (by rw [publish_nextId]; exact h)]
      simp only [publish_nextId, countSubs]

theorem countSubs_replicate (t : String) : ∀ n : Nat,
    countSubs (List.replicate n (TopicOp.sub t)) = n := by
  intro n
  induction n with
  | zero => rfl
  | succ k ih => rw [List.replicate_succ, countSubs, ih]

/-- Counterexample to C6: after `2 ^ 32` subscribes the `AtomicU32` id
counter has wrapped, so the issued id sequence (which ends with 0 after
issuing 1, 2, …, 2³²−1) is not strictly increasing. -/
theorem C6_counterexample :
    ¬ (issuedIds (List.replicate (2 ^ 32) (TopicOp.sub "t"))).Pairwise
      (· < ·) := by
  have hiss : issuedIds (List.replicate (2 ^ 32) (TopicOp.sub "t")) =
      (List.range (2 ^ 32)).map (fun i => (1 + i) % 2 ^ 32) := by
    unfold issuedIds
    rw [runOps_issued _ _ (by norm_num [PubSub.init]), countSubs_replicate]
    rfl
  rw [hiss]
  intro hp
  rw [List.pairwise_iff_getElem] at hp
  have hlen : ((List.range (2 ^ 32)).map (fun i => (1 + i) % 2 ^ 32)).length =
      2 ^ 32 := by simp
  have h01 := hp 0 (2 ^ 32 - 1) (by rw [hlen]; norm_num)
    (by rw [hlen]; norm_num) (by norm_num)
  simp only [List.getElem_map, List.getElem_range] at h01
  omega

/-- C6 amended: as long as fewer than `2 ^ 32` subscribes happen in the
process lifetime, the issued subscription ids are exactly 1, 2, 3, … in
order — strictly increasing, starting at 1, with no id issued twice.  (At
the `2 ^ 32`-th subscribe the 32-bit counter wraps and ids repeat.) -/
theorem C6_subscription_ids (ops : List TopicOp)
    (h : countSubs ops < 2 ^ 32) :
    issuedIds ops = List.range' 1 (countSubs ops) ∧
    (issuedIds ops).Pairwise (· < ·) ∧
    (issuedIds ops).Nodup ∧
    (0 < countSubs ops → (issuedIds ops).head? = some 1) := by
  have heq : issuedIds ops = List.range' 1 (countSubs ops) := by
    unfold issuedIds
    rw [runOps_issued _ _ (by norm_num [PubSub.init]),
      List.range'_eq_map_range]
    apply List.map_congr_left
    intro i hi
    have hib : i < countSubs ops := List.mem_range.mp hi
    show (PubSub.init.nextId + i) % 2 ^ 32 = 1 + i
    simp only [PubSub.init]
    omega
  refine ⟨heq, ?_, ?_, ?_⟩
  · rw [heq]; exact List.pairwise_lt_range' 1 (countSubs ops)
  · rw [heq]; exact List.nodup_range' 1 (countSubs ops)
  · intro hpos
    rw [heq]
    cases hc : countSubs ops with
    | zero => omega
    | succ k => rfl

/-- Witness for C6: a concrete run — subscribe, unsubscribe, publish,
subscribe — issues exactly the ids 1 and 2. -/
theorem C6_subscription_ids_witness :
    countSubs [TopicOp.sub "a", TopicOp.unsub "a" 1,
      TopicOp.pub "a" [Value.ofStr "x"], TopicOp.sub "b"] < 2 ^ 32 ∧
    (issuedIds [TopicOp.sub "a", TopicOp.unsub "a" 1,
        TopicOp.pub "a" [Value.ofStr "x"], TopicOp.sub "b"] =
      List.range' 1 (countSubs [TopicOp.sub "a", TopicOp.unsub "a" 1,
        TopicOp.pub "a" [Value.ofStr "x"], TopicOp.sub "b"]) ∧
    (issuedIds [TopicOp.sub "a", TopicOp.unsub "a" 1,
      TopicOp.pub "a" [Value.ofStr "x"], TopicOp.sub "b"]).Pairwise (· < ·) ∧
    (issuedIds [TopicOp.sub "a", TopicOp.unsub "a" 1,
      TopicOp.pub "a" [Value.ofStr "x"], TopicOp.sub "b"]).Nodup ∧
    (0 < countSubs [TopicOp.sub "a", TopicOp.unsub "a" 1,
        TopicOp.pub "a" [Value.ofStr "x"], TopicOp.sub "b"] →
      (issuedIds [TopicOp.sub "a", TopicOp.unsub "a" 1,
        TopicOp.pub "a" [Value.ofStr "x"], TopicOp.sub "b"]).head? =
        some 1)) :=
  ⟨by norm_num [countSubs],
   C6_subscription_ids _ (by norm_num [countSubs])⟩

/- ------------------------------------------------------------------ -/
/- Claim C8: the id-discovery packet                                   -/
/- ------------------------------------------------------------------ -/

theorem foldAppend_head (id : Nat) (d v : CommandResponse) (subs : List Nat) :
    ∀ (ids : List Nat) (mbs : List (Nat × List CommandResponse))
      (t : List CommandResponse),
    assocGet id mbs = some (d :: t) →
    ∃ t2, assocGet id (ids.foldl (fun mbs i =>
        if i ∈ subs then assocAppend i v mbs else mbs) mbs) =
      some (d :: t2) := by
  intro ids
  induction ids with
  | nil => intro mbs t h; exact ⟨t, h⟩
  | cons hd tl ih =>
    intro mbs t h
    rw [List.foldl_cons]
    by_cases hin : hd ∈ subs
    · rw [if_pos hin]
      obtain ⟨t2, h2⟩ := assocGet_append_head hd v mbs h
      exact ih _ _ h2
    · rw [if_neg hin]
      exact ih _ _ h

/-- Along any run, a subscription's mailbox only ever grows at the tail —
its first message is preserved — as long as no later subscribe re-issues
the same id (which would replace the mailbox). -/
theorem runOps_mailbox_head (id : Nat) (d : CommandResponse) :
    ∀ (ops : List TopicOp) (ps : PubSub) (t : List CommandResponse),
    assocGet id ps.mailboxes = some (d :: t) →
    id ∉ (runOps ops ps).2 →
    ∃ t2, assocGet id ((runOps ops ps).1).mailboxes = some (d :: t2) := by
  intro ops
  induction ops with
  | nil => intro ps t h _; exact ⟨t, h⟩
  | cons hd tl ih =>
    intro ps t h hni
    cases hd with
    | sub n =>
      have hni' : id ∉ (ps.nextId :: (runOps tl (ps.subscribe n).2).2) := hni
      rw [List.mem_cons, not_or] at hni'
      have h' : assocGet id ((ps.subscribe n).2).mailboxes = some (d :: t) := by
        show assocGet id
          (assocPut ps.nextId [idMessage ps.nextId] ps.mailboxes) = _
        rw [assocGet_put_other _ _ hni'.1]
        exact h
      exact ih _ _ h' hni'.2
    | unsub n i =>
      have hm : ((ps.unsubscribe n i).2).mailboxes =
          assocAppend i CommandResponse.unsubscribeAck ps.mailboxes ∨
          ((ps.unsubscribe n i).2).mailboxes = ps.mailboxes := by
        unfold PubSub.unsubscribe
        split <;> split
        · exact Or.inl rfl
        · exact Or.inr rfl
        · exact Or.inl rfl
        · exact Or.inr rfl
      cases hm with
      | inl heq =>
        obtain ⟨t2, h2⟩ := assocGet_append_head i
          CommandResponse.unsubscribeAck ps.mailboxes h
        exact ih _ _ (heq ▸ h2) hni
      | inr heq =>
        exact ih _ _ (heq ▸ h) hni
    | pub n dd =>
      have hm : ∃ t2, assocGet id
          ((ps.publish n (.ofValues dd)).mailboxes) = some (d :: t2) := by
        unfold PubSub.publish
        cases hg : assocGet n ps.topics with
        | none => exact ⟨t, h⟩
        | some ids => exact foldAppend_head id d _ ps.subs ids ps.mailboxes t h
      obtain ⟨t2, h2⟩ := hm
      exact ih _ _ h2 hni

/-- C8: a Subscribe call enqueues, as the very first message of the new
subscription's mailbox, the status-200 id-discovery packet whose values
list is exactly the allocated id as an i64; and along any subsequent run
(publishes included) that does not re-issue the id, that packet stays at
the head of the mailbox — it precedes every published message delivered to
the subscription. -/
theorem C8_subscribe_first_message (ps : PubSub) (name : String)
    (ops : List TopicOp)
    (hfresh : (ps.subscribe name).1 ∉ (runOps ops (ps.subscribe name).2).2) :
    assocGet (ps.subscribe name).1 ((ps.subscribe name).2).mailboxes =
      some [idMessage (ps.subscribe name).1] ∧
    (idMessage (ps.subscribe name).1).status = 200 ∧
    (idMessage (ps.subscribe name).1).values =
      [Value.ofInt ((ps.subscribe name).1 : Int)] ∧
    ∃ tail, assocGet (ps.subscribe name).1
        ((runOps ops (ps.subscribe name).2).1).mailboxes =
      some (idMessage (ps.subscribe name).1 :: tail) := by
  have hfirst : assocGet (ps.subscribe name).1
      ((ps.subscribe name).2).mailboxes =
      some [idMessage (ps.subscribe name).1] := by
    show assocGet ps.nextId
      (assocPut ps.nextId [idMessage ps.nextId] ps.mailboxes) = _
    rw [assocGet_put_self]
    rfl
  exact ⟨hfirst, rfl, rfl,
    runOps_mailbox_head _ _ ops _ [] hfirst hfresh⟩

/-- Witness for C8: subscribing to `"cae"` on a fresh broadcaster and then
publishing to the topic and unsubscribing id 1 — the discovery packet for
id 1 stays first in the mailbox. -/
theorem C8_subscribe_first_message_witness :
    (PubSub.init.subscribe "cae").1 ∉
      (runOps [TopicOp.pub "cae" [Value.ofStr "hello"], TopicOp.unsub "cae" 1]
        (PubSub.init.subscribe "cae").2).2 ∧
    (assocGet (PubSub.init.subscribe "cae").1
        ((PubSub.init.subscribe "cae").2).mailboxes =
      some [idMessage (PubSub.init.subscribe "cae").1] ∧
    (idMessage (PubSub.init.subscribe "cae").1).status = 200 ∧
    (idMessage (PubSub.init.subscribe "cae").1).values =
      [Value.ofInt ((PubSub.init.subscribe "cae").1 : Int)] ∧
    ∃ tail, assocGet (PubSub.init.subscribe "cae").1
        ((runOps [TopicOp.pub "cae" [Value.ofStr "hello"],
          TopicOp.unsub "cae" 1] (PubSub.init.subscribe "cae").2).1).mailboxes =
      some (idMessage (PubSub.init.subscribe "cae").1 :: tail)) :=
  ⟨by decide, C8_subscribe_first_message PubSub.init "cae" _ (by decide)⟩

/- ------------------------------------------------------------------ -/
/- Claim C9: Unsubscribe of an unknown id                              -/
/- ------------------------------------------------------------------ -/

/-- C9: when the id is not registered in the subscriptions map — the
broadcaster state satisfying its invariants (topic sets are non-empty and
only hold registered ids) — `unsubscribe` returns
`NotFound(topic, "subscription {id}")` and changes no state, and the
`Unsubscribe` command answers with the single status-404 response carrying
that error's display message; in particular a second unsubscribe of an
already-removed id is such a no-op. -/
theorem C9_unsubscribe_not_found (ps : PubSub) (name : String) (id : Nat)
    (hsub : id ∉ ps.subs)
    (hne : ∀ pr ∈ ps.topics, pr.2 ≠ ([] : List Nat))
    (hdom : ∀ pr ∈ ps.topics, ∀ i ∈ pr.2, i ∈ ps.subs) :
    ps.unsubscribe name id =
      (.error (.NotFound name ("subscription " ++ toString id)), ps) ∧
    unsubscribeExecute ps name id =
      (.ofError (.NotFound name ("subscription " ++ toString id)), ps) ∧
    (CommandResponse.ofError
      (.NotFound name ("subscription " ++ toString id))).status = 404 := by
  have hts : (match assocGet name ps.topics with
      | some s =>
        let s' := s.erase id
        if s' = [] then assocDrop name ps.topics else assocPut name s' ps.topics
      | none => ps.topics) = ps.topics := by
    cases hg : assocGet name ps.topics with
    | none => rfl
    | some s =>
      show (let s' := s.erase id
        if s' = [] then assocDrop name ps.topics
        else assocPut name s' ps.topics) = ps.topics
      have hmem := assocGet_mem hg
      have hid : id ∉ s := fun hin => hsub (hdom _ hmem _ hin)
      show (if s.erase id = [] then assocDrop name ps.topics
        else assocPut name (s.erase id) ps.topics) = ps.topics
      rw [List.erase_of_not_mem hid, if_neg (hne _ hmem)]
      exact assocPut_self_eq hg
  have hstep : ps.unsubscribe name id =
      (.error (.NotFound name ("subscription " ++ toString id)), ps) := by
    unfold PubSub.unsubscribe
    simp only [hts, if_neg hsub]
  refine ⟨hstep, ?_, rfl⟩
  unfold unsubscribeExecute
  rw [hstep]

/-- Witness for C9: on the state reached by subscribing to `"cae"` (id 1)
and unsubscribing id 1 again, a second unsubscribe of id 1 returns the 404
NotFound and leaves the state unchanged. -/
theorem C9_unsubscribe_not_found_witness :
    (1 ∉ ((PubSub.init.subscribe "cae").2.unsubscribe "cae" 1).2.subs) ∧
    (∀ pr ∈ ((PubSub.init.subscribe "cae").2.unsubscribe "cae" 1).2.topics,
      pr.2 ≠ ([] : List Nat)) ∧
    (∀ pr ∈ ((PubSub.init.subscribe "cae").2.unsubscribe "cae" 1).2.topics,
      ∀ i ∈ pr.2, i ∈ ((PubSub.init.subscribe "cae").2.unsubscribe
        "cae" 1).2.subs) ∧
    (((PubSub.init.subscribe "cae").2.unsubscribe "cae" 1).2.unsubscribe
        "cae" 1 =
      (.error (.NotFound "cae" ("subscription " ++ toString 1)),
        ((PubSub.init.subscribe "cae").2.unsubscribe "cae" 1).2) ∧
    unsubscribeExecute ((PubSub.init.subscribe "cae").2.unsubscribe
        "cae" 1).2 "cae" 1 =
      (.ofError (.NotFound "cae" ("subscription " ++ toString 1)),
        ((PubSub.init.subscribe "cae").2.unsubscribe "cae" 1).2) ∧
    (CommandResponse.ofError
      (.NotFound "cae" ("subscription " ++ toString 1))).status = 404) :=
  ⟨by decide, by decide, by decide,
   C9_unsubscribe_not_found _ "cae" 1 (by decide) (by decide) (by decide)⟩

end KV
